import Mathlib

/-!
Verification development for the FunChat API gateway
(`src/integrations/supabase/types.ts` worker section,
`public/cloudflare-worker/funchat-gateway.ts`, `src/hooks/useMessages.tsx`).

Each TypeScript function relevant to the verified properties is shallowly
embedded as an executable Lean definition; machine integers are modelled as
`Nat` with explicit `% 2 ^ 32` where 32-bit overflow matters, external
key-value stores as explicit functions threaded through the calls, and the
SSE poll loop as structural recursion over the finite trace of iteration
contexts the scheduler grants the loop.
-/

namespace Gateway

/-! ## SHA-256 (as used by `crypto.subtle.digest('SHA-256', …)`)

The two gateway variants hash API keys with WebCrypto SHA-256 over the UTF-8
bytes of a concatenation of key and salt.  We embed SHA-256 (FIPS 180-4)
over byte lists, with 32-bit words as `Nat` reduced `% 2 ^ 32`. -/

/-- Right rotation of a 32-bit word. -/
def rotr32 (n x : Nat) : Nat :=
  ((x >>> n) ||| (x <<< (32 - n))) % 2 ^ 32

/-- SHA-256 small sigma 0. -/
def ssig0 (x : Nat) : Nat := (rotr32 7 x) ^^^ (rotr32 18 x) ^^^ (x >>> 3)

/-- SHA-256 small sigma 1. -/
def ssig1 (x : Nat) : Nat := (rotr32 17 x) ^^^ (rotr32 19 x) ^^^ (x >>> 10)

/-- SHA-256 big sigma 0. -/
def bsig0 (x : Nat) : Nat := (rotr32 2 x) ^^^ (rotr32 13 x) ^^^ (rotr32 22 x)

/-- SHA-256 big sigma 1. -/
def bsig1 (x : Nat) : Nat := (rotr32 6 x) ^^^ (rotr32 11 x) ^^^ (rotr32 25 x)

/-- SHA-256 round constants (first 32 bits of the fractional parts of the
cube roots of the first 64 primes). -/
def shaK : List Nat :=
  [1116352408, 1899447441, 3049323471, 3921009573, 961987163, 1508970993,
   2453635748, 2870763221, 3624381080, 310598401, 607225278, 1426881987,
   1925078388, 2162078206, 2614888103, 3248222580, 3835390401, 4022224774,
   264347078, 604807628, 770255983, 1249150122, 1555081692, 1996064986,
   2554220882, 2821834349, 2952996808, 3210313671, 3336571891, 3584528711,
   113926993, 338241895, 666307205, 773529912, 1294757372, 1396182291,
   1695183700, 1986661051, 2177026350, 2456956037, 2730485921, 2820302411,
   3259730800, 3345764771, 3516065817, 3600352804, 4094571909, 275423344,
   430227734, 506948616, 659060556, 883997877, 958139571, 1322822218,
   1537002063, 1747873779, 1955562222, 2024104815, 2227730452, 2361852424,
   2428436474, 2756734187, 3204031479, 3329325298]

/-- SHA-256 initial hash state (square roots of the first 8 primes). -/
structure Sha8 where
  a : Nat
  b : Nat
  c : Nat
  d : Nat
  e : Nat
  f : Nat
  g : Nat
  h : Nat
deriving Repr, DecidableEq

/-- The initial SHA-256 hash value. -/
def shaH0 : Sha8 :=
  ⟨1779033703, 3144134277, 1013904242, 2773480762,
   1359893119, 2600822924, 528734635, 1541459225⟩

/-- Next word of the message schedule, from the words produced so far. -/
def nextScheduleWord (w : List Nat) : Nat :=
  let l := w.length
  (ssig1 (w.getD (l - 2) 0) + w.getD (l - 7) 0 +
   ssig0 (w.getD (l - 15) 0) + w.getD (l - 16) 0) % 2 ^ 32

/-- Extend a 16-word block to the full 64-word message schedule. -/
def extendSchedule : Nat → List Nat → List Nat
  | 0, w => w
  | n + 1, w => extendSchedule n (w ++ [nextScheduleWord w])

/-- One SHA-256 compression round. -/
def shaRound (st : Sha8) (kw : Nat × Nat) : Sha8 :=
  let t1 := (st.h + bsig1 st.e + ((st.e &&& st.f) ^^^ ((st.e ^^^ (2 ^ 32 - 1)) &&& st.g))
             + kw.1 + kw.2) % 2 ^ 32
  let t2 := (bsig0 st.a + ((st.a &&& st.b) ^^^ (st.a &&& st.c) ^^^ (st.b &&& st.c))) % 2 ^ 32
  ⟨(t1 + t2) % 2 ^ 32, st.a, st.b, st.c, (st.d + t1) % 2 ^ 32, st.e, st.f, st.g⟩

/-- Compress one 16-word block into the running hash state. -/
def compressBlock (st : Sha8) (block : List Nat) : Sha8 :=
  let w := extendSchedule 48 block
  let r := (shaK.zip w).foldl shaRound st
  ⟨(st.a + r.a) % 2 ^ 32, (st.b + r.b) % 2 ^ 32, (st.c + r.c) % 2 ^ 32,
   (st.d + r.d) % 2 ^ 32, (st.e + r.e) % 2 ^ 32, (st.f + r.f) % 2 ^ 32,
   (st.g + r.g) % 2 ^ 32, (st.h + r.h) % 2 ^ 32⟩

/-- Big-endian 64-bit encoding of a number, as 8 bytes. -/
def be64 (n : Nat) : List Nat :=
  [(n >>> 56) % 256, (n >>> 48) % 256, (n >>> 40) % 256, (n >>> 32) % 256,
   (n >>> 24) % 256, (n >>> 16) % 256, (n >>> 8) % 256, n % 256]

/-- SHA-256 padding: append `0x80`, zeros up to 56 mod 64, then the bit
length in 64-bit big-endian form. -/
def shaPad (msg : List Nat) : List Nat :=
  let len := msg.length
  msg ++ [128] ++ List.replicate ((119 - len % 64) % 64) 0 ++ be64 (8 * len)

/-- Split a byte list into chunks of 64 (fuelled structural recursion). -/
def chunk64F : Nat → List Nat → List (List Nat)
  | 0, _ => []
  | _, [] => []
  | fuel + 1, l => l.take 64 :: chunk64F fuel (l.drop 64)

/-- Split a byte list into chunks of 64 bytes. -/
def chunk64 (l : List Nat) : List (List Nat) := chunk64F l.length l

/-- Big-endian 32-bit words from a chunk of bytes. -/
def bytesToWords : List Nat → List Nat
  | b0 :: b1 :: b2 :: b3 :: rest =>
      (b0 <<< 24 + b1 <<< 16 + b2 <<< 8 + b3) :: bytesToWords rest
  | _ => []

/-- Big-endian bytes of one 32-bit word. -/
def wordToBytes (w : Nat) : List Nat :=
  [(w >>> 24) % 256, (w >>> 16) % 256, (w >>> 8) % 256, w % 256]

/-- SHA-256 digest of a byte list, as 32 bytes. -/
def sha256 (msg : List Nat) : List Nat :=
  let st := ((chunk64 (shaPad msg)).map bytesToWords).foldl compressBlock shaH0
  wordToBytes st.a ++ wordToBytes st.b ++ wordToBytes st.c ++ wordToBytes st.d ++
  wordToBytes st.e ++ wordToBytes st.f ++ wordToBytes st.g ++ wordToBytes st.h

/-- Lowercase hex digit character. -/
def hexDigit (n : Nat) : Char :=
  if n < 10 then Char.ofNat (48 + n) else Char.ofNat (87 + n)

/-- Two-digit lowercase hex of a byte, as produced by
`b.toString(16).padStart(2, '0')`. -/
def byteHex (b : Nat) : String :=
  String.mk [hexDigit (b / 16), hexDigit (b % 16)]

/-- Hex string of a byte list (`hashArray.map(…).join('')`). -/
def bytesToHex (bs : List Nat) : String :=
  String.join (bs.map byteHex)

/-- UTF-8 encoding of one code point, as `TextEncoder` produces. -/
def utf8Char (c : Nat) : List Nat :=
  if c < 128 then [c]
  else if c < 2048 then [192 ||| (c >>> 6), 128 ||| (c &&& 63)]
  else if c < 65536 then
    [224 ||| (c >>> 12), 128 ||| ((c >>> 6) &&& 63), 128 ||| (c &&& 63)]
  else
    [240 ||| (c >>> 18), 128 ||| ((c >>> 12) &&& 63),
     128 ||| ((c >>> 6) &&& 63), 128 ||| (c &&& 63)]

/-- UTF-8 bytes of a string (`new TextEncoder().encode(s)`). -/
def utf8Bytes (s : String) : List Nat :=
  (s.data.map fun ch => utf8Char ch.toNat).flatten

/-- `hashApiKey` of the extended gateway
(`src/integrations/supabase/types.ts`): SHA-256 hex digest of the UTF-8
bytes of `key + salt`. -/
def hashApiKey (key salt : String) : String :=
  bytesToHex (sha256 (utf8Bytes (key ++ salt)))

/-- `hashApiKey` of the basic worker
(`public/cloudflare-worker/funchat-gateway.ts`): SHA-256 hex digest of the
UTF-8 bytes of `salt + key`. -/
def hashApiKeyWorker (key salt : String) : String :=
  bytesToHex (sha256 (utf8Bytes (salt ++ key)))

example :
    bytesToHex (sha256 (utf8Bytes "abc")) =
      "ba7816bf8f01cfea414140de5dae2223b00361a396177a9cb410ff61f20015ad" := by
  decide

/-! ## String primitives

JS string operations used by the gateway, embedded over the character
list of a `String` (they agree with the JS operations on the header and
origin values involved, and unlike the `Substring`-based core versions
they evaluate inside the kernel). -/

/-- `s.startsWith(pre)`. -/
def strStartsWith (s pre : String) : Bool :=
  pre.data.isPrefixOf s.data

/-- `s.endsWith(post)`. -/
def strEndsWith (s post : String) : Bool :=
  post.data.isSuffixOf s.data

/-- `s.trim()`: strip whitespace from both ends. -/
def strTrim (s : String) : String :=
  ⟨((s.data.dropWhile Char.isWhitespace).reverse.dropWhile
      Char.isWhitespace).reverse⟩

/-- `s.split(',')` on the character list; `""` splits to `[""]`. -/
def splitCommaChars : List Char → List (List Char)
  | [] => [[]]
  | c :: rest =>
    let r := splitCommaChars rest
    if c = ',' then [] :: r
    else
      match r with
      | h :: t => (c :: h) :: t
      | [] => [[c]]

/-- `s.split(',')`. -/
def splitComma (s : String) : List String :=
  (splitCommaChars s.data).map String.mk

/-! ## Origin admission (`isOriginAllowed`) -/

/-- Parse the `ALLOWED_ORIGINS` environment value:
`envAllowed?.split(',').map(o => o.trim()).filter(Boolean) || []`. -/
def parseEnvOrigins (envAllowed : Option String) : List String :=
  match envAllowed with
  | none => []
  | some s => ((splitComma s).map strTrim).filter (· ≠ "")

/-- `isOriginAllowed` from `src/integrations/supabase/types.ts`: the key
allow-list merged with the environment allow-list; an empty merged list
admits everything; a missing (or empty, hence falsy) Origin is otherwise
rejected; an entry admits by `*`, by the `*.suffix` clause
(`endsWith(domain) || origin === "https://"+domain || origin === "http://"+domain`),
or by exact equality. -/
def isOriginAllowed (origin : Option String) (allowedOrigins : List String)
    (envAllowed : Option String) : Bool :=
  let allAllowed := allowedOrigins ++ parseEnvOrigins envAllowed
  if allAllowed.isEmpty then
    true
  else
    match origin with
    | none => false
    | some o =>
      if o = "" then false
      else
        allAllowed.any fun allowed =>
          if allowed = "*" then true
          else if strStartsWith allowed "*." then
            let domain := allowed.drop 2
            strEndsWith o domain || o = "https://" ++ domain
              || o = "http://" ++ domain
          else o = allowed

/-! ## Rate limiter (`checkRateLimit`, extended gateway) -/

/-- `RATE_LIMIT_WINDOW = 3600` (one hour, in seconds). -/
def RATE_LIMIT_WINDOW : Nat := 3600

/-- The record stored per `(identity, window)` key in the `RATE_LIMIT` KV
namespace. -/
structure RateLimitData where
  count : Nat
  resetAt : Nat
deriving Repr, DecidableEq

/-- The value returned by `checkRateLimit`. -/
structure RateLimitResult where
  allowed : Bool
  remaining : Nat
  resetAt : Nat
deriving Repr, DecidableEq

/-- The `RATE_LIMIT` KV namespace, modelled as a partial map. -/
def RLStore : Type := String → Option RateLimitData

/-- The empty KV store. -/
def emptyRLStore : RLStore := fun _ => none

/-- The KV key `rl:{identifier}:{windowStart}`. -/
def rlKey (identifier : String) (windowStart : Nat) : String :=
  "rl:" ++ identifier ++ ":" ++ toString windowStart

/-- `checkRateLimit` from `src/integrations/supabase/types.ts`, with the
clock (`Math.floor(Date.now() / 1000)`) passed as `now` and the KV store
threaded explicitly; returns the result together with the updated store. -/
def checkRateLimit (identifier : String) (limit : Nat) (now : Nat)
    (store : RLStore) : RateLimitResult × RLStore :=
  let windowStart := now - now % RATE_LIMIT_WINDOW
  let resetAt := windowStart + RATE_LIMIT_WINDOW
  let key := rlKey identifier windowStart
  let count := match store key with
    | some d => d.count
    | none => 0
  if limit ≤ count then
    ({ allowed := false, remaining := 0, resetAt := resetAt }, store)
  else
    ({ allowed := true, remaining := limit - count - 1, resetAt := resetAt },
     fun k => if k = key then some ⟨count + 1, resetAt⟩ else store k)

/-- Run `checkRateLimit` once per timestamp in `times`, threading the store;
returns the list of per-call results and the final store. -/
def runRateLimitCalls (identifier : String) (limit : Nat) (times : List Nat)
    (store : RLStore) : List RateLimitResult × RLStore :=
  match times with
  | [] => ([], store)
  | t :: rest =>
    let c := checkRateLimit identifier limit t store
    let r := runRateLimitCalls identifier limit rest c.2
    (c.1 :: r.1, r.2)

/-! ## Scope table and request/forwarding model -/

/-- `ENDPOINT_SCOPES` of the extended gateway, in source order. -/
def ENDPOINT_SCOPES : List (String × List (String × String)) :=
  [("/api-chat",
     [("GET", "chat:read"), ("POST", "chat:write"), ("PUT", "chat:write"),
      ("PATCH", "chat:write"), ("DELETE", "chat:write")]),
   ("/api-users",
     [("GET", "users:read"), ("POST", "users:write"), ("PUT", "users:write"),
      ("PATCH", "users:write")]),
   ("/api-calls",
     [("GET", "calls:read"), ("POST", "calls:write"), ("PUT", "calls:write"),
      ("PATCH", "calls:write")]),
   ("/api-crypto", [("GET", "crypto:read"), ("POST", "crypto:write")]),
   ("/api-webhooks",
     [("GET", "webhooks:read"), ("POST", "webhooks:write"),
      ("PUT", "webhooks:write"), ("PATCH", "webhooks:write"),
      ("DELETE", "webhooks:write")])]

/-- `getRequiredScope`: first endpoint whose prefix matches the pathname,
then the method entry (`methods[method] || null`). -/
def getRequiredScope (pathname method : String) : Option String :=
  match ENDPOINT_SCOPES.find? fun e => strStartsWith pathname e.1 with
  | none => none
  | some e => (e.2.find? fun ms => ms.1 = method).map (·.2)

/-- The cached/stored API-key identity record (`KeyData`). -/
structure KeyData where
  id : String
  user_id : String
  app_id : Option String
  scopes : List String
  allowed_origins : List String
  rate_limit : Nat
  is_active : Bool
  expires_at : Option Nat
  key_salt : String
deriving Repr, DecidableEq

/-- HTTP headers, modelled as a partial map on lowercase header names
(JS `Headers` is case-insensitive). -/
def HeaderMap : Type := String → Option String

/-- `headers.set(name, value)`. -/
def hset (h : HeaderMap) (name value : String) : HeaderMap :=
  fun k => if k = name then some value else h k

/-- `headers.delete(name)`. -/
def hdel (h : HeaderMap) (name : String) : HeaderMap :=
  fun k => if k = name then none else h k

/-- `Array.prototype.join(',')`. -/
def joinComma : List String → String
  | [] => ""
  | [s] => s
  | s :: rest => s ++ "," ++ joinComma rest

/-- An inbound or forwarded HTTP request: method, pathname, query search
string, headers and an opaque body. -/
structure GReq where
  method : String
  url : String
  headers : HeaderMap
  body : Option String

/-- Gateway outcome (the part observable to the caller, or the forwarded
request when the gateway proxies): an error envelope
`{ok:false, error:{code,message}}` with its HTTP status, or a proxied call. -/
inductive GRes where
  | error (code message : String) (status : Nat)
  | forward (req : GReq)

/-- The scope test of `handleApiKeyRoute`:
`requiredScope && !keyData.scopes.includes(requiredScope)`. -/
def scopeMissing (pathname method : String) (keyData : KeyData) : Bool :=
  match getRequiredScope pathname method with
  | some s => !keyData.scopes.contains s
  | none => false

/-- `handleApiKeyRoute` from `src/integrations/supabase/types.ts`
(scope check, rate limit, then header rewriting and proxying), with the
clock and KV store explicit.  `pathname`/`search` are the components of the
inbound URL. -/
def handleApiKeyRoute (req : GReq) (pathname search : String) (keyData : KeyData)
    (requestId : String) (functionsUrl serviceKey : String) (now : Nat)
    (store : RLStore) : GRes × RLStore :=
  if scopeMissing pathname req.method keyData then
    (.error "INSUFFICIENT_SCOPE"
        ("Required scope: " ++ ((getRequiredScope pathname req.method).getD ""))
        403, store)
  else
    let rl := checkRateLimit ("key:" ++ keyData.id) keyData.rate_limit now store
    let store' := rl.2
    if !rl.1.allowed then
      (.error "RATE_LIMITED" "Rate limit exceeded" 429, store')
    else
      let targetUrl := functionsUrl ++ pathname ++ search
      let fh := req.headers
      let fh := hset fh "authorization" ("Bearer " ++ serviceKey)
      let fh := hset fh "x-auth-mode" "api_key"
      let fh := hset fh "x-funchat-api-key-id" keyData.id
      let fh := hset fh "x-funchat-user-id" keyData.user_id
      let fh := hset fh "x-funchat-scopes" (joinComma keyData.scopes)
      let fh := hset fh "x-request-id" requestId
      let fh := match keyData.app_id with
        | some appId => hset fh "x-funchat-app-id" appId
        | none => fh
      let fh := hdel fh "x-funchat-api-key"
      (.forward { method := req.method, url := targetUrl, headers := fh,
                  body := req.body }, store')

/-! ## API-key verification (`verifyApiKey`) and the main handler's
API-key branch -/

/-- A cache entry: the key data plus the stored `key_hash`. -/
structure CachedKey where
  keyData : KeyData
  key_hash : String

/-- The `API_KEY_CACHE` KV namespace. -/
def CacheStore : Type := String → Option CachedKey

/-- A row returned by the `verify_api_key` RPC (nullable columns as
`Option`; `scopes`, `allowed_origins`, `rate_limit` may be null/absent). -/
structure KeyRecord where
  id : String
  user_id : String
  app_id : Option String
  scopes : Option (List String)
  allowed_origins : Option (List String)
  rate_limit : Option Nat
  is_active : Bool
  expires_at : Option Nat
  key_salt : String

/-- `verifyApiKey` from `src/integrations/supabase/types.ts`.  The two
Supabase reads this run performs are modelled by their replies: `rpcOk`
and `rpcRows` stand for the `verify_api_key` RPC response for the key's
12-character prefix, `hashOk` and `hashRows` for the follow-up
`api_keys?key_prefix=eq.{prefix}&select=key_hash` query.  Returns the key
data (or `none` on any failure) and the updated cache. -/
def verifyApiKey (apiKey : String) (cache : CacheStore)
    (rpcOk : Bool) (rpcRows : List KeyRecord)
    (hashOk : Bool) (hashRows : List String) :
    Option KeyData × CacheStore :=
  let keyPrefix := apiKey.take 12
  match cache ("key:" ++ keyPrefix) with
  | some cached =>
    let hash := hashApiKey apiKey cached.keyData.key_salt
    if hash = cached.key_hash then (some cached.keyData, cache)
    else (none, cache)
  | none =>
    if !rpcOk then (none, cache)
    else
      match rpcRows with
      | [] => (none, cache)
      | keyRecord :: _ =>
        let hash := hashApiKey apiKey keyRecord.key_salt
        if !hashOk then (none, cache)
        else
          match hashRows with
          | [] => (none, cache)
          | storedHash :: _ =>
            if hash ≠ storedHash then (none, cache)
            else
              let keyData : KeyData :=
                { id := keyRecord.id
                  user_id := keyRecord.user_id
                  app_id := keyRecord.app_id
                  scopes := keyRecord.scopes.getD []
                  allowed_origins := keyRecord.allowed_origins.getD []
                  rate_limit :=
                    match keyRecord.rate_limit with
                    | some r => if r = 0 then 1000 else r
                    | none => 1000
                  is_active := keyRecord.is_active
                  expires_at := keyRecord.expires_at
                  key_salt := keyRecord.key_salt }
              (some keyData,
               fun k => if k = "key:" ++ keyPrefix then
                          some ⟨keyData, hash⟩
                        else cache k)

/-- The API-key branch of the main `fetch` handler (format check,
`verifyApiKey`, active/expiry/origin checks, then `handleApiKeyRoute`).
`apiKey` is the `x-funchat-api-key` header value; the stores and the
Supabase replies for this run's reads are explicit parameters. -/
def apiKeyBranch (req : GReq) (pathname search : String) (apiKey : String)
    (origin : Option String) (envAllowed : Option String)
    (requestId functionsUrl serviceKey : String) (now : Nat)
    (cache : CacheStore) (rpcOk : Bool) (rpcRows : List KeyRecord)
    (hashOk : Bool) (hashRows : List String) (store : RLStore) :
    GRes × RLStore :=
  if !(strStartsWith apiKey "fc_live_" || strStartsWith apiKey "fc_test_") then
    (.error "INVALID_API_KEY" "Invalid API key format" 401, store)
  else
    match (verifyApiKey apiKey cache rpcOk rpcRows hashOk hashRows).1 with
    | none => (.error "INVALID_API_KEY" "Invalid API key" 401, store)
    | some keyData =>
      if !keyData.is_active then
        (.error "API_KEY_INACTIVE" "API key is inactive" 403, store)
      else if match keyData.expires_at with
              | some ts => decide (ts < now)
              | none => false then
        (.error "API_KEY_EXPIRED" "API key has expired" 403, store)
      else if !isOriginAllowed origin keyData.allowed_origins envAllowed then
        (.error "ORIGIN_NOT_ALLOWED" "Origin not allowed" 403, store)
      else
        handleApiKeyRoute req pathname search keyData requestId functionsUrl
          serviceKey now store

/-! ## SSE stream manager (`handleSSEStream`, `fetchNewMessages`)

The poll loop of `handleSSEStream` is embedded as structural recursion over
the finite trace of loop iterations the scheduler grants the connection.
Each iteration context carries the clock value observed during that
iteration, the snapshot of the conversation's message table the poll query
runs against, and whether writes to the client transport succeed during the
iteration (a failing write makes `sendEvent` return `false`). -/

/-- `SSE_HEARTBEAT_INTERVAL = 15000` (ms). -/
def SSE_HEARTBEAT_INTERVAL : Nat := 15000

/-- `SSE_POLL_INTERVAL = 2000` (ms). -/
def SSE_POLL_INTERVAL : Nat := 2000

/-- `SSE_MAX_DURATION = 25000` (ms, below the platform execution limit). -/
def SSE_MAX_DURATION : Nat := 25000

/-- A stored chat message row, with the fields the stream consults:
identifier (ordered, as compared by `id=gt.…`), creation time, and the
soft-delete flag. -/
structure Msg where
  id : Nat
  createdAt : Nat
  isDeleted : Bool
deriving Repr, DecidableEq

/-- The per-connection stream state (`SSEState`). -/
structure SSEState where
  lastMessageId : Option Nat
  lastMessageTime : Nat
deriving Repr, DecidableEq

/-- The `SSEState` created when the stream opens: null watermark,
`lastMessageTime = Date.now()`. -/
def initSSEState (now : Nat) : SSEState :=
  { lastMessageId := none, lastMessageTime := now }

/-- Insert a message into a created_at-ascending list, before any
later-created message and after earlier-or-equal ones. -/
def insertByCreated (m : Msg) : List Msg → List Msg
  | [] => [m]
  | x :: xs =>
    if m.createdAt ≤ x.createdAt then m :: x :: xs
    else x :: insertByCreated m xs

/-- Sort a message table by `created_at` ascending (the `order=created_at.asc`
clause of the poll query). -/
def sortByCreated (l : List Msg) : List Msg := l.foldr insertByCreated []

/-- `fetchNewMessages`: the REST query
`messages?conversation_id=eq.…&is_deleted=eq.false&order=created_at.asc&limit=50`
plus `&id=gt.{lastMessageId}` when a watermark is present, evaluated against
the snapshot `table` of the conversation's rows. -/
def fetchNewMessages (table : List Msg) (lastMessageId : Option Nat) :
    List Msg :=
  ((sortByCreated table).filter fun m =>
      !m.isDeleted &&
        match lastMessageId with
        | none => true
        | some l => decide (l < m.id)).take 50

/-- Events written to the SSE transport. -/
inductive SSEEvent where
  | connected
  | message (m : Msg)
  | ping (ts : Nat)
  | reconnect
deriving Repr, DecidableEq

/-- One granted iteration of the poll loop: the clock value, the message
table snapshot, and whether transport writes succeed in this iteration. -/
structure SSEIter where
  now : Nat
  table : List Msg
  writeOk : Bool

/-- The body of `handleSSEStream`'s `while (isRunning)` loop, iterated over
the granted iteration contexts.  Returns the events successfully written
during the loop and whether the loop terminated (`cleanup` ran / `return`),
`false` meaning the session was still running when the trace ended.
Mirrors the source order: duration check (emit `reconnect`, close),
heartbeat (close on write failure), poll + per-message emit advancing the
watermark (close on write failure), sleep. -/
def sseLoop (startTime : Nat) : List SSEIter → Option Nat → Nat →
    List SSEEvent × Bool
  | [], _, _ => ([], false)
  | it :: rest, w, lastHeartbeat =>
    if SSE_MAX_DURATION < it.now - startTime then
      ((if it.writeOk then [.reconnect] else []), true)
    else
      let hbDue := SSE_HEARTBEAT_INTERVAL < it.now - lastHeartbeat
      if hbDue && !it.writeOk then ([], true)
      else
        let hbEvents : List SSEEvent := if hbDue then [.ping it.now] else []
        let lastHeartbeat' := if hbDue then it.now else lastHeartbeat
        let batch := fetchNewMessages it.table w
        if batch.isEmpty then
          let r := sseLoop startTime rest w lastHeartbeat'
          (hbEvents ++ r.1, r.2)
        else if it.writeOk then
          let w' := match batch.getLast? with
            | some m => some m.id
            | none => w
          let r := sseLoop startTime rest w' lastHeartbeat'
          (hbEvents ++ batch.map .message ++ r.1, r.2)
        else (hbEvents, true)

/-- The stream session after the membership check passed: the `connected`
event, then the poll loop starting from the null-watermark state with
`startTime = lastHeartbeat = Date.now()` at entry. -/
def sseSession (startTime : Nat) (iters : List SSEIter) :
    List SSEEvent × Bool :=
  let r :=
    sseLoop startTime iters (initSSEState startTime).lastMessageId startTime
  (.connected :: r.1, r.2)

/-- Identifiers of the `message` events in an event list. -/
def emittedIds (evs : List SSEEvent) : List Nat :=
  evs.filterMap fun e =>
    match e with
    | .message m => some m.id
    | _ => none

/-! ## Client realtime adapter (`useMessages.tsx`) -/

/-- A client-side message entry: server or temp id, content, sender,
message type, optional reply target, opaque metadata, and the optimistic
flags `_sending` / `_failed` (absent in TS ≙ `false`). -/
structure CMsg where
  id : String
  content : String
  sender_id : String
  message_type : String
  reply_to_id : Option String
  metadata : String
  sending : Bool
  failed : Bool
deriving Repr, DecidableEq

/-- `handleIncomingMessage`'s state update: drop exact id duplicates,
replace the first matching optimistic (`_sending`) entry in place, else
append. -/
def handleIncomingMessage (prev : List CMsg) (msg : CMsg) : List CMsg :=
  if prev.any fun m => m.id = msg.id then prev
  else
    match prev.findIdx? fun m =>
        m.sending && m.content = msg.content && m.sender_id = msg.sender_id with
    | some idx => prev.set idx { msg with sending := false, failed := false }
    | none => prev ++ [msg]

/-- The optimistic append `setMessages(prev => [...prev, tempMessage])`
performed by `sendMessage` before the network call. -/
def appendOptimistic (prev : List CMsg) (temp : CMsg) : List CMsg :=
  prev ++ [temp]

/-- The `sendMessage` failure update: mark the temp entry `_failed`. -/
def markFailed (prev : List CMsg) (tempId : String) : List CMsg :=
  prev.map fun m =>
    if m.id = tempId then { m with sending := false, failed := true } else m

/-- The network call `retryMessage` re-issues through `sendMessage`. -/
structure SendCall where
  content : String
  message_type : String
  metadata : String
  reply_to_id : Option String
deriving Repr, DecidableEq

/-- `retryMessage`: look up the failed entry by temp id, remove it from the
list, and — only when its `message_type` is `'text'` — re-issue the send
with the entry's content, type, metadata and reply target.  Returns the
updated list and the re-issued call, if any. -/
def retryMessage (messages : List CMsg) (tempMessageId : String) :
    List CMsg × Option SendCall :=
  match messages.find? fun m => m.id = tempMessageId && m.failed with
  | none => (messages, none)
  | some failedMessage =>
    let removed := messages.filter fun m => !(m.id = tempMessageId)
    if failedMessage.message_type = "text" then
      (removed,
       some { content := failedMessage.content
              message_type := failedMessage.message_type
              metadata := failedMessage.metadata
              reply_to_id := failedMessage.reply_to_id })
    else (removed, none)

/-! ## Theorems -/

/-- C10 (counterexample): the two `hashApiKey` variants do NOT compute the
same digest for every key and salt — the basic worker hashes `salt + key`
while the extended gateway hashes `key + salt`, so already at key `"k"`,
salt `"s"` the digests differ. -/
theorem claim_C10_counterexample :
    hashApiKeyWorker "k" "s" ≠ hashApiKey "k" "s" := by
  decide

/-- C10 (amended): the two `hashApiKey` variants hash mirror-image
concatenations — the basic worker's digest of `(key, salt)` equals the
extended gateway's digest of `(salt, key)`, and only coincides with the
gateway's digest of `(key, salt)` when the two concatenations agree; the
two versions are therefore not interchangeable against one identity
store. -/
theorem claim_C10_hash_variants_mirrored :
    ∀ key salt : String, hashApiKeyWorker key salt = hashApiKey salt key :=
  fun _ _ => rfl

/-- C3: origin admission.  (1) An empty allow-list (with no environment
list) admits every origin.  (2) A `*` entry admits every (non-empty)
origin.  (3)–(4) `*.example.com` admits `https://app.example.com` and
rejects `https://example.com.evil.org`.  (5) An entry of the form
`*.suffix` admits exactly the origins matching the suffix wildcard: those
ending in `suffix`, or equal to the bare domain behind `https://` or
`http://`.  (6) Any other entry admits exactly the origin equal to it; all
other origins are rejected. -/
theorem claim_C3_origin_admission :
    (∀ o : Option String, isOriginAllowed o [] none = true)
    ∧ (∀ (o : String) (allowed : List String) (env : Option String),
        o ≠ "" → "*" ∈ allowed → isOriginAllowed (some o) allowed env = true)
    ∧ isOriginAllowed (some "https://app.example.com") ["*.example.com"] none
        = true
    ∧ isOriginAllowed (some "https://example.com.evil.org") ["*.example.com"]
        none = false
    ∧ (∀ e o : String, o ≠ "" → strStartsWith e "*." = true →
        (isOriginAllowed (some o) [e] none = true ↔
          (strEndsWith o (e.drop 2) = true ∨ o = "https://" ++ e.drop 2
            ∨ o = "http://" ++ e.drop 2)))
    ∧ (∀ e o : String, o ≠ "" → e ≠ "*" → strStartsWith e "*." = false →
        (isOriginAllowed (some o) [e] none = true ↔ o = e)) := by
  refine ⟨fun o => rfl, ?_, by decide, by decide, ?_, ?_⟩
  · intro o allowed env ho hmem
    match allowed, hmem with
    | a :: t, hmem =>
      simp only [isOriginAllowed]
      rw [if_neg (by simp [List.isEmpty])]
      rw [if_neg ho]
      exact List.any_eq_true.mpr ⟨"*", List.mem_append_left _ hmem, by simp⟩
  · intro e o ho hsw
    have he : e ≠ "*" := by
      intro h
      subst h
      exact absurd hsw (by decide)
    simp only [isOriginAllowed, parseEnvOrigins, List.append_nil]
    rw [if_neg (by simp [List.isEmpty])]
    rw [if_neg ho]
    simp [he, hsw, or_assoc]
  · intro e o ho he hsw
    simp only [isOriginAllowed, parseEnvOrigins, List.append_nil]
    rw [if_neg (by simp [List.isEmpty])]
    rw [if_neg ho]
    simp [he, hsw]

/-- Witness for C3, at the wildcard entry `*.example.com` and origin
`https://app.example.com`. -/
theorem claim_C3_origin_admission_witness :
    (("https://app.example.com" : String) ≠ ""
      ∧ strStartsWith "*.example.com" "*." = true)
    ∧ (isOriginAllowed (some "https://app.example.com") ["*.example.com"] none
          = true ↔
        (strEndsWith "https://app.example.com" ("*.example.com".drop 2) = true
          ∨ "https://app.example.com" = "https://" ++ "*.example.com".drop 2
          ∨ "https://app.example.com" = "http://" ++ "*.example.com".drop 2)) :=
  ⟨⟨by decide, by decide⟩,
   claim_C3_origin_admission.2.2.2.2.1 "*.example.com" "https://app.example.com"
     (by decide) (by decide)⟩

/-- `RATE_LIMIT_WINDOW` is positive. -/
theorem rate_limit_window_pos : 0 < RATE_LIMIT_WINDOW := by decide

/-- Generalized run of `checkRateLimit` inside one window: starting from a
store whose counter for the window `W` already holds `c ≤ limit`
admissions, the `i`-th call is admitted with remaining `limit - (c+i) - 1`
exactly when `c + i < limit`, rejections leave the counter unchanged, and
the final counter is `min (c + #calls) limit`. -/
theorem runRateLimitCalls_window_spec (identifier : String) (limit : Nat)
    (hl : 0 < limit) (W : Nat) (times : List Nat)
    (hw : ∀ t ∈ times, t - t % RATE_LIMIT_WINDOW = W)
    (store : RLStore) (c : Nat)
    (hc : store (rlKey identifier W) =
      if c = 0 then none else some ⟨c, W + RATE_LIMIT_WINDOW⟩)
    (hcl : c ≤ limit) :
    (∀ i, i < times.length →
      (runRateLimitCalls identifier limit times store).1.getD i ⟨false, 0, 0⟩ =
        if c + i < limit then
          ⟨true, limit - (c + i) - 1, W + RATE_LIMIT_WINDOW⟩
        else ⟨false, 0, W + RATE_LIMIT_WINDOW⟩)
    ∧ (runRateLimitCalls identifier limit times store).2 (rlKey identifier W) =
        if c + times.length = 0 then none
        else some ⟨min (c + times.length) limit, W + RATE_LIMIT_WINDOW⟩ := by
  induction times generalizing store c with
  | nil =>
    refine ⟨fun i hi => absurd hi (by simp), ?_⟩
    simpa [Nat.min_eq_left hcl] using hc
  | cons t rest ih =>
    have hW : t - t % RATE_LIMIT_WINDOW = W := hw t (by simp)
    have hwrest : ∀ u ∈ rest, u - u % RATE_LIMIT_WINDOW = W :=
      fun u hu => hw u (by simp [hu])
    have hcount :
        (match store (rlKey identifier W) with
          | some d => d.count
          | none => 0) = c := by
      rw [hc]
      by_cases h0 : c = 0 <;> simp [h0]
    by_cases hlc : limit ≤ c
    · -- already at the limit: this call and all later ones are rejected
      have hceq : c = limit := le_antisymm hcl hlc
      obtain ⟨ih1, ih2⟩ := ih hwrest store c hc hcl
      constructor
      · intro i hi
        match i with
        | 0 =>
          simp only [runRateLimitCalls, checkRateLimit, hW, hcount,
            if_pos hlc, List.getD_cons_zero]
          rw [if_neg (by omega)]
        | i + 1 =>
          simp only [runRateLimitCalls, checkRateLimit, hW, hcount,
            if_pos hlc, List.getD_cons_succ]
          have := ih1 i (by simpa using hi)
          rw [if_neg (by omega)] at this
          rw [if_neg (by omega)]
          exact this
      · simp only [runRateLimitCalls, checkRateLimit, hW, hcount, if_pos hlc]
        rw [ih2, if_neg (by omega)]
        simp only [List.length_cons]
        rw [if_neg (by omega)]
        have h1 : min (c + rest.length) limit = limit := by omega
        have h2 : min (c + (rest.length + 1)) limit = limit := by omega
        rw [h1, h2]
    · -- under the limit: admit, increment the counter, recurse with c + 1
      push_neg at hlc
      obtain ⟨ih1, ih2⟩ := ih hwrest
        (fun k => if k = rlKey identifier W then
           some (⟨c + 1, W + RATE_LIMIT_WINDOW⟩ : RateLimitData)
         else store k)
        (c + 1) (by simp) (by omega)
      constructor
      · intro i hi
        match i with
        | 0 =>
          simp only [runRateLimitCalls, checkRateLimit, hW, hcount,
            if_neg (by omega : ¬ limit ≤ c), List.getD_cons_zero]
          rw [if_pos (by omega)]
          simp
        | i + 1 =>
          simp only [runRateLimitCalls, checkRateLimit, hW, hcount,
            if_neg (by omega : ¬ limit ≤ c), List.getD_cons_succ]
          have := ih1 i (by simpa using hi)
          have harith : c + 1 + i = c + (i + 1) := by omega
          rw [harith] at this
          exact this
      · simp only [runRateLimitCalls, checkRateLimit, hW, hcount,
          if_neg (by omega : ¬ limit ≤ c)]
        rw [ih2, if_neg (by omega)]
        simp only [List.length_cons]
        rw [if_neg (by omega)]
        have harith : c + 1 + rest.length = c + (rest.length + 1) := by omega
        rw [harith]

/-- The behavior C2 asserts of the rate limiter for a run of same-window
calls against a fresh store: every result carries the reset time of the
aligned window `now - now % windowSize`; the first `limit` calls are
admitted with `remaining` decreasing by exactly one per call; later calls
are rejected with a reset time no earlier than their clock value; and the
stored count stops incrementing at `limit`. -/
def RateLimiterSpec (identifier : String) (limit now0 : Nat)
    (times : List Nat) : Prop :=
  (∀ t store, (checkRateLimit identifier limit t store).1.resetAt
      = (t - t % RATE_LIMIT_WINDOW) + RATE_LIMIT_WINDOW)
  ∧ (∀ i, i < times.length → i < limit →
      (runRateLimitCalls identifier limit times emptyRLStore).1.getD i
          ⟨false, 0, 0⟩ =
        ⟨true, limit - 1 - i,
         (now0 - now0 % RATE_LIMIT_WINDOW) + RATE_LIMIT_WINDOW⟩)
  ∧ (∀ i, i < times.length → limit ≤ i →
      (runRateLimitCalls identifier limit times emptyRLStore).1.getD i
          ⟨false, 0, 0⟩ =
        ⟨false, 0, (now0 - now0 % RATE_LIMIT_WINDOW) + RATE_LIMIT_WINDOW⟩
      ∧ times.getD i 0 ≤ (now0 - now0 % RATE_LIMIT_WINDOW) + RATE_LIMIT_WINDOW)
  ∧ (times ≠ [] →
      (runRateLimitCalls identifier limit times emptyRLStore).2
          (rlKey identifier (now0 - now0 % RATE_LIMIT_WINDOW)) =
        some ⟨min times.length limit,
              (now0 - now0 % RATE_LIMIT_WINDOW) + RATE_LIMIT_WINDOW⟩)

/-- C2: for every identity and positive configured limit, a sequence of
`checkRateLimit` calls whose clock values all fall in one fixed window,
run against a fresh store, admits exactly the first `limit` calls with
`remaining` decreasing by one each time, rejects the `(limit+1)`-th and
later calls with a reset time no earlier than the call's clock, leaves the
stored count capped at `limit`, and computes every window start as
`now - now % RATE_LIMIT_WINDOW`. -/
theorem claim_C2_rate_limiter (identifier : String) (limit : Nat)
    (hl : 0 < limit) (now0 : Nat) (times : List Nat)
    (hw : ∀ t ∈ times,
      t - t % RATE_LIMIT_WINDOW = now0 - now0 % RATE_LIMIT_WINDOW) :
    RateLimiterSpec identifier limit now0 times := by
  obtain ⟨h1, h2⟩ := runRateLimitCalls_window_spec identifier limit hl
    (now0 - now0 % RATE_LIMIT_WINDOW) times hw emptyRLStore 0 rfl (by omega)
  refine ⟨?_, ?_, ?_, ?_⟩
  · intro t store
    simp only [checkRateLimit]
    split <;> rfl
  · intro i hi hil
    have h := h1 i hi
    rw [if_pos (by omega)] at h
    rw [h]
    simp only [RateLimitResult.mk.injEq]
    exact ⟨trivial, by omega, trivial⟩
  · intro i hi hil
    refine ⟨?_, ?_⟩
    · have h := h1 i hi
      rw [if_neg (by omega)] at h
      exact h
    · have hmem : times.getD i 0 ∈ times := by
        rw [List.getD_eq_getElem times 0 hi]
        exact List.getElem_mem hi
      have ht := hw _ hmem
      have hmlt : times.getD i 0 % RATE_LIMIT_WINDOW < RATE_LIMIT_WINDOW :=
        Nat.mod_lt _ rate_limit_window_pos
      have hml : times.getD i 0 % RATE_LIMIT_WINDOW ≤ times.getD i 0 :=
        Nat.mod_le _ _
      omega
  · intro hne
    rw [h2]
    have hlen : times.length ≠ 0 := by
      simpa [List.length_eq_zero] using hne
    rw [if_neg (by omega)]
    simp only [Nat.zero_add]

/-- Witness for C2: identity `user:u1`, limit 2, three calls at clock
values 7205, 7206, 7207 (all inside the hour window starting at 7200). -/
theorem claim_C2_rate_limiter_witness :
    0 < 2
    ∧ (∀ t ∈ [7205, 7206, 7207],
        t - t % RATE_LIMIT_WINDOW = 7205 - 7205 % RATE_LIMIT_WINDOW)
    ∧ RateLimiterSpec "user:u1" 2 7205 [7205, 7206, 7207] :=
  ⟨by decide, by decide,
   claim_C2_rate_limiter "user:u1" 2 (by decide) 7205 [7205, 7206, 7207]
     (by decide)⟩

/-- A failed optimistic message of type `crypto`, as `sendCryptoMessage`
leaves it after a failed network call. -/
def cryptoFailedMsg : CMsg :=
  { id := "temp_1", content := "sent 1 USDT", sender_id := "u1",
    message_type := "crypto", reply_to_id := none, metadata := "m",
    sending := false, failed := true }

/-- C7 (counterexample): retrying a failed message is NOT independent of
its message type — for the failed `crypto` message, `retryMessage` removes
the entry from the list but issues no resend (the network call the claim
requires is absent). -/
theorem claim_C7_counterexample :
    (retryMessage [cryptoFailedMsg] "temp_1").2 = none
    ∧ (retryMessage [cryptoFailedMsg] "temp_1").1 = [] := by
  constructor <;> decide

/-- C7 (amended): for every message found failed under the given temp id,
`retryMessage` removes it from the local list; when its type is `text` it
resubmits it as a new send carrying the same content, type, metadata and
reply target, and otherwise it issues no resend. -/
theorem claim_C7_retry_removes_and_resends_text (messages : List CMsg)
    (tid : String) (m : CMsg)
    (hfind : messages.find? (fun x => x.id = tid && x.failed) = some m) :
    (retryMessage messages tid).1 = messages.filter (fun x => !(x.id = tid))
    ∧ (retryMessage messages tid).2 =
        if m.message_type = "text" then
          some ⟨m.content, m.message_type, m.metadata, m.reply_to_id⟩
        else none := by
  unfold retryMessage
  rw [hfind]
  by_cases ht : m.message_type = "text" <;> simp [ht]

/-- A failed optimistic message of type `text`. -/
def textFailedMsg : CMsg :=
  { id := "temp_2", content := "hello", sender_id := "u1",
    message_type := "text", reply_to_id := none, metadata := "m",
    sending := false, failed := true }

/-- Witness for the amended C7, at a concrete failed `text` message. -/
theorem claim_C7_retry_witness :
    [textFailedMsg].find? (fun x => x.id = "temp_2" && x.failed) =
        some textFailedMsg
    ∧ ((retryMessage [textFailedMsg] "temp_2").1 =
          [textFailedMsg].filter (fun x => !(x.id = "temp_2"))
        ∧ (retryMessage [textFailedMsg] "temp_2").2 =
            if textFailedMsg.message_type = "text" then
              some ⟨textFailedMsg.content, textFailedMsg.message_type,
                    textFailedMsg.metadata, textFailedMsg.reply_to_id⟩
            else none) :=
  ⟨by decide,
   claim_C7_retry_removes_and_resends_text [textFailedMsg] "temp_2"
     textFailedMsg (by decide)⟩

/-- `findIdx?` on `l ++ [x]` finds `x` at position `l.length` when the
predicate rejects everything in `l` and accepts `x`. -/
theorem findIdx?_append_singleton {α : Type} (p : α → Bool) (l : List α)
    (x : α) (h : ∀ m ∈ l, p m = false) (hx : p x = true) :
    (l ++ [x]).findIdx? p = some l.length := by
  induction l with
  | nil => simp [List.findIdx?_cons, hx]
  | cons a t ih =>
    have ha : p a = false := h a (by simp)
    have ht : ∀ m ∈ t, p m = false := fun m hm => h m (by simp [hm])
    simp [List.findIdx?_cons, ha, ih ht]

/-- Setting position `l.length` of `l ++ [x]` replaces `x`. -/
theorem set_append_singleton {α : Type} (l : List α) (x y : α) :
    (l ++ [x]).set l.length y = l ++ [y] := by
  induction l with
  | nil => rfl
  | cons a t ih => simp [ih]

/-- C6: reconciliation of an optimistic send with its server echo.  After
the optimistic append of the pending entry `temp` and the arrival of the
first authoritative echo `msg` matching its sender and content, the
adapter state equals `prev` with the confirmed echo in `temp`'s place
(in-place replacement); redelivering the echo changes nothing; no pending
entry matching the echo's sender and content remains; exactly one entry
carries the server id; and id-distinctness is preserved. -/
theorem claim_C6_echo_reconciliation (prev : List CMsg) (temp msg : CMsg)
    (hsend : temp.sending = true)
    (hct : temp.content = msg.content)
    (hst : temp.sender_id = msg.sender_id)
    (hidp : ∀ m ∈ prev, m.id ≠ msg.id)
    (hidt : temp.id ≠ msg.id)
    (hnp : ∀ m ∈ prev,
      ¬(m.sending = true ∧ m.content = msg.content
        ∧ m.sender_id = msg.sender_id)) :
    handleIncomingMessage (appendOptimistic prev temp) msg =
        prev ++ [{ msg with sending := false, failed := false }]
    ∧ handleIncomingMessage
          (prev ++ [{ msg with sending := false, failed := false }]) msg =
        prev ++ [{ msg with sending := false, failed := false }]
    ∧ (∀ m ∈ prev ++ [{ msg with sending := false, failed := false }],
        ¬(m.sending = true ∧ m.content = msg.content
          ∧ m.sender_id = msg.sender_id))
    ∧ (prev ++ [{ msg with sending := false, failed := false }]).countP
          (fun m : CMsg => m.id = msg.id) = 1
    ∧ ((prev.map (fun m : CMsg => m.id)).Nodup →
        ((prev ++ [{ msg with sending := false, failed := false }]).map
            (fun m : CMsg => m.id)).Nodup) := by
  have hany : ((prev ++ [temp]).any fun m => m.id = msg.id) = false := by
    rw [List.any_eq_false]
    intro m hm
    rcases List.mem_append.mp hm with hm | hm
    · simpa using hidp m hm
    · simp only [List.mem_singleton] at hm
      subst hm
      simpa using hidt
  have hq : ∀ m ∈ prev,
      (fun m : CMsg => m.sending && m.content = msg.content
        && m.sender_id = msg.sender_id) m = false := by
    intro m hm
    have := hnp m hm
    simp only [Bool.and_eq_false_imp, Bool.and_eq_true, decide_eq_true_iff]
    by_contra hcon
    push_neg at hcon
    rcases hcon with ⟨⟨h1, h2⟩, h3⟩
    exact this ⟨h1, h2, by simpa using h3⟩
  have hqt : (fun m : CMsg => m.sending && m.content = msg.content
      && m.sender_id = msg.sender_id) temp = true := by
    simp [hsend, hct, hst]
  have hmain : handleIncomingMessage (appendOptimistic prev temp) msg =
      prev ++ [{ msg with sending := false, failed := false }] := by
    unfold handleIncomingMessage appendOptimistic
    rw [hany]
    simp only [Bool.false_eq_true, if_false]
    rw [findIdx?_append_singleton _ prev temp hq hqt]
    exact set_append_singleton prev temp _
  refine ⟨hmain, ?_, ?_, ?_, ?_⟩
  · have hmem : ((prev ++ [{ msg with sending := false, failed := false }]).any
        fun m : CMsg => m.id = msg.id) = true := by
      rw [List.any_eq_true]
      exact ⟨{ msg with sending := false, failed := false },
        List.mem_append_right _ (by simp), by simp⟩
    unfold handleIncomingMessage
    rw [hmem]
    simp
  · intro m hm
    rcases List.mem_append.mp hm with hm | hm
    · exact hnp m hm
    · simp only [List.mem_singleton] at hm
      subst hm
      simp
  · rw [List.countP_append]
    have hz : prev.countP (fun m : CMsg => m.id = msg.id) = 0 := by
      rw [List.countP_eq_zero]
      intro m hm
      simpa using hidp m hm
    simp [hz]
  · intro hnd
    rw [List.map_append, List.nodup_append]
    refine ⟨hnd, by simp, ?_⟩
    intro a ha hb
    simp only [List.mem_map] at ha
    rcases ha with ⟨m, hm, rfl⟩
    simp only [List.map_cons, List.map_nil, List.mem_singleton] at hb
    exact hidp m hm hb

/-- A concrete pending (optimistic) text message. -/
def pendingTempMsg : CMsg :=
  { id := "temp_9", content := "hi", sender_id := "u1",
    message_type := "text", reply_to_id := none, metadata := "m",
    sending := true, failed := false }

/-- The server echo of `pendingTempMsg` (same sender and content, server
id). -/
def serverEchoMsg : CMsg :=
  { id := "m1", content := "hi", sender_id := "u1",
    message_type := "text", reply_to_id := none, metadata := "m",
    sending := false, failed := false }

/-- Witness for C6, at an empty prior list, the concrete pending message
and its server echo. -/
theorem claim_C6_echo_reconciliation_witness :
    (pendingTempMsg.sending = true
      ∧ pendingTempMsg.content = serverEchoMsg.content
      ∧ pendingTempMsg.sender_id = serverEchoMsg.sender_id
      ∧ pendingTempMsg.id ≠ serverEchoMsg.id)
    ∧ (handleIncomingMessage (appendOptimistic [] pendingTempMsg)
          serverEchoMsg =
        [] ++ [{ serverEchoMsg with sending := false, failed := false }]
      ∧ handleIncomingMessage
            ([] ++ [{ serverEchoMsg with sending := false, failed := false }])
            serverEchoMsg =
          [] ++ [{ serverEchoMsg with sending := false, failed := false }]
      ∧ (∀ m ∈ ([] : List CMsg)
            ++ [{ serverEchoMsg with sending := false, failed := false }],
          ¬(m.sending = true ∧ m.content = serverEchoMsg.content
            ∧ m.sender_id = serverEchoMsg.sender_id))
      ∧ (([] : List CMsg)
            ++ [{ serverEchoMsg with sending := false, failed := false }]).countP
            (fun m : CMsg => m.id = serverEchoMsg.id) = 1
      ∧ ((([] : List CMsg).map (fun m : CMsg => m.id)).Nodup →
          ((([] : List CMsg)
              ++ [{ serverEchoMsg with sending := false, failed := false }]).map
              (fun m : CMsg => m.id)).Nodup)) :=
  ⟨⟨by decide, by decide, by decide, by decide⟩,
   claim_C6_echo_reconciliation [] pendingTempMsg serverEchoMsg
     (by decide) (by decide) (by decide) (by decide) (by decide) (by decide)⟩

/-- C8: every successfully authenticated API-key request that reaches the
forwarding step (scope present, rate limit admitted) is proxied with the
identity headers injected (key id, user id, comma-joined scopes, app id
when present), without the raw API key header, with method, body and URL
target preserved, and with every inbound header the gateway does not
explicitly set passed through unchanged. -/
theorem claim_C8_forwarding (req : GReq) (pathname search : String)
    (keyData : KeyData) (requestId functionsUrl serviceKey : String)
    (now : Nat) (store : RLStore)
    (hscope : scopeMissing pathname req.method keyData = false)
    (hrl : (checkRateLimit ("key:" ++ keyData.id) keyData.rate_limit now
        store).1.allowed = true) :
    ∃ fwd : GReq,
      (handleApiKeyRoute req pathname search keyData requestId functionsUrl
          serviceKey now store).1 = .forward fwd
      ∧ fwd.headers "x-funchat-api-key-id" = some keyData.id
      ∧ fwd.headers "x-funchat-user-id" = some keyData.user_id
      ∧ fwd.headers "x-funchat-scopes" = some (joinComma keyData.scopes)
      ∧ (∀ appId, keyData.app_id = some appId →
          fwd.headers "x-funchat-app-id" = some appId)
      ∧ fwd.headers "x-funchat-api-key" = none
      ∧ fwd.method = req.method
      ∧ fwd.body = req.body
      ∧ fwd.url = functionsUrl ++ pathname ++ search
      ∧ (∀ name, name ∉ ["authorization", "x-auth-mode",
            "x-funchat-api-key-id", "x-funchat-user-id", "x-funchat-scopes",
            "x-request-id", "x-funchat-app-id", "x-funchat-api-key"] →
          fwd.headers name = req.headers name) := by
  simp only [handleApiKeyRoute, hscope, hrl, Bool.false_eq_true, if_false,
    Bool.not_true]
  refine ⟨_, rfl, ?_, ?_, ?_, ?_, ?_, rfl, rfl, rfl, ?_⟩
  · cases happ : keyData.app_id <;> simp [hset, hdel, happ]
  · cases happ : keyData.app_id <;> simp [hset, hdel, happ]
  · cases happ : keyData.app_id <;> simp [hset, hdel, happ]
  · intro appId happ
    simp [hset, hdel, happ]
  · cases happ : keyData.app_id <;> simp [hset, hdel, happ]
  · intro name hname
    simp only [List.mem_cons, List.mem_singleton, not_or] at hname
    obtain ⟨h1, h2, h3, h4, h5, h6, h7, h8⟩ := hname
    cases happ : keyData.app_id <;>
      simp [hset, hdel, happ, h1, h2, h3, h4, h5, h6, h7, h8]

/-- A concrete API-key identity record. -/
def demoKeyData : KeyData :=
  { id := "key_1", user_id := "u1", app_id := some "app_1",
    scopes := ["chat:read"], allowed_origins := [], rate_limit := 60,
    is_active := true, expires_at := none, key_salt := "s" }

/-- A concrete inbound request with no prior headers. -/
def demoReq : GReq :=
  { method := "GET", url := "https://gw.example/api-chat/conversations",
    headers := fun _ => none, body := none }

/-- Witness for C8, forwarding a concrete authenticated GET. -/
theorem claim_C8_forwarding_witness :
    scopeMissing "/api-chat/conversations" "GET" demoKeyData = false
    ∧ (checkRateLimit ("key:" ++ demoKeyData.id) demoKeyData.rate_limit 1000
        emptyRLStore).1.allowed = true
    ∧ ∃ fwd : GReq,
      (handleApiKeyRoute demoReq "/api-chat/conversations" "" demoKeyData
          "req_1" "https://fns.example" "svc" 1000 emptyRLStore).1 =
        .forward fwd
      ∧ fwd.headers "x-funchat-api-key-id" = some demoKeyData.id
      ∧ fwd.headers "x-funchat-user-id" = some demoKeyData.user_id
      ∧ fwd.headers "x-funchat-scopes" = some (joinComma demoKeyData.scopes)
      ∧ (∀ appId, demoKeyData.app_id = some appId →
          fwd.headers "x-funchat-app-id" = some appId)
      ∧ fwd.headers "x-funchat-api-key" = none
      ∧ fwd.method = demoReq.method
      ∧ fwd.body = demoReq.body
      ∧ fwd.url = "https://fns.example" ++ "/api-chat/conversations" ++ ""
      ∧ (∀ name, name ∉ ["authorization", "x-auth-mode",
            "x-funchat-api-key-id", "x-funchat-user-id", "x-funchat-scopes",
            "x-request-id", "x-funchat-app-id", "x-funchat-api-key"] →
          fwd.headers name = demoReq.headers name) :=
  ⟨by decide, by decide,
   claim_C8_forwarding demoReq "/api-chat/conversations" "" demoKeyData
     "req_1" "https://fns.example" "svc" 1000 emptyRLStore
     (by decide) (by decide)⟩

/-- C4: the two failing authentication runs are outwardly
indistinguishable.  Run A supplies a key whose lookup prefix matches no
stored record (empty RPC reply); run B supplies a key whose prefix matches
a record but whose salted hash disagrees with the stored hash.  Both runs
produce the same outward error — status 401, code `INVALID_API_KEY`,
message `Invalid API key` — so a caller cannot tell `key not found` from
`hash mismatch`. -/
theorem claim_C4_auth_failures_indistinguishable
    (k1 k2 : String) (req1 req2 : GReq) (p1 s1 p2 s2 : String)
    (origin env : Option String)
    (requestId functionsUrl serviceKey : String) (now : Nat)
    (cacheA cacheB : CacheStore) (storeA storeB : RLStore)
    (recB : KeyRecord) (storedHash : String)
    (hfmt1 : (strStartsWith k1 "fc_live_" || strStartsWith k1 "fc_test_")
      = true)
    (hfmt2 : (strStartsWith k2 "fc_live_" || strStartsWith k2 "fc_test_")
      = true)
    (hcacheA : cacheA ("key:" ++ k1.take 12) = none)
    (hcacheB : cacheB ("key:" ++ k2.take 12) = none)
    (hmismatch : hashApiKey k2 recB.key_salt ≠ storedHash) :
    (apiKeyBranch req1 p1 s1 k1 origin env requestId functionsUrl serviceKey
        now cacheA true [] true [] storeA).1 =
      GRes.error "INVALID_API_KEY" "Invalid API key" 401
    ∧ (apiKeyBranch req2 p2 s2 k2 origin env requestId functionsUrl
        serviceKey now cacheB true [recB] true [storedHash] storeB).1 =
      GRes.error "INVALID_API_KEY" "Invalid API key" 401
    ∧ (apiKeyBranch req1 p1 s1 k1 origin env requestId functionsUrl
        serviceKey now cacheA true [] true [] storeA).1 =
      (apiKeyBranch req2 p2 s2 k2 origin env requestId functionsUrl
        serviceKey now cacheB true [recB] true [storedHash] storeB).1 := by
  have hA : (apiKeyBranch req1 p1 s1 k1 origin env requestId functionsUrl
      serviceKey now cacheA true [] true [] storeA).1 =
      GRes.error "INVALID_API_KEY" "Invalid API key" 401 := by
    simp [apiKeyBranch, verifyApiKey, hfmt1, hcacheA]
  have hB : (apiKeyBranch req2 p2 s2 k2 origin env requestId functionsUrl
      serviceKey now cacheB true [recB] true [storedHash] storeB).1 =
      GRes.error "INVALID_API_KEY" "Invalid API key" 401 := by
    simp [apiKeyBranch, verifyApiKey, hfmt2, hcacheB, hmismatch]
  exact ⟨hA, hB, by rw [hA, hB]⟩

/-- The record run B's prefix lookup returns. -/
def demoKeyRecordB : KeyRecord :=
  { id := "key_2", user_id := "u2", app_id := none, scopes := none,
    allowed_origins := none, rate_limit := none, is_active := true,
    expires_at := none, key_salt := "s2" }

/-- Witness for C4: concrete unknown-prefix and hash-mismatch runs. -/
theorem claim_C4_auth_failures_witness :
    ((strStartsWith "fc_live_aaaabbbb" "fc_live_"
        || strStartsWith "fc_live_aaaabbbb" "fc_test_") = true
      ∧ (strStartsWith "fc_test_ccccdddd" "fc_live_"
        || strStartsWith "fc_test_ccccdddd" "fc_test_") = true
      ∧ hashApiKey "fc_test_ccccdddd" demoKeyRecordB.key_salt ≠ "deadbeef")
    ∧ ((apiKeyBranch demoReq "/api-chat" "" "fc_live_aaaabbbb" none none
          "req_1" "https://fns.example" "svc" 1000 (fun _ => none) true []
          true [] emptyRLStore).1 =
        GRes.error "INVALID_API_KEY" "Invalid API key" 401
      ∧ (apiKeyBranch demoReq "/api-chat" "" "fc_test_ccccdddd" none none
          "req_1" "https://fns.example" "svc" 1000 (fun _ => none) true
          [demoKeyRecordB] true ["deadbeef"] emptyRLStore).1 =
        GRes.error "INVALID_API_KEY" "Invalid API key" 401
      ∧ (apiKeyBranch demoReq "/api-chat" "" "fc_live_aaaabbbb" none none
          "req_1" "https://fns.example" "svc" 1000 (fun _ => none) true []
          true [] emptyRLStore).1 =
        (apiKeyBranch demoReq "/api-chat" "" "fc_test_ccccdddd" none none
          "req_1" "https://fns.example" "svc" 1000 (fun _ => none) true
          [demoKeyRecordB] true ["deadbeef"] emptyRLStore).1) :=
  ⟨⟨by decide, by decide, by decide⟩,
   claim_C4_auth_failures_indistinguishable "fc_live_aaaabbbb"
     "fc_test_ccccdddd" demoReq demoReq "/api-chat" "" "/api-chat" "" none
     none "req_1" "https://fns.example" "svc" 1000 (fun _ => none)
     (fun _ => none) emptyRLStore emptyRLStore demoKeyRecordB "deadbeef"
     (by decide) (by decide) rfl rfl (by decide)⟩

/-- The watermark bound: every id fetched under watermark `w` is above it. -/
def watermarkLt (w : Option Nat) (i : Nat) : Prop :=
  match w with
  | none => True
  | some l => l < i

/-- A created_at-ascending table is a fixpoint of `sortByCreated`. -/
theorem sortByCreated_eq_self (l : List Msg)
    (h : List.Pairwise (fun a b : Msg => a.createdAt ≤ b.createdAt) l) :
    sortByCreated l = l := by
  induction l with
  | nil => rfl
  | cons a t ih =>
    rcases List.pairwise_cons.mp h with ⟨ha, ht⟩
    show insertByCreated a (sortByCreated t) = a :: t
    rw [ih ht]
    cases t with
    | nil => rfl
    | cons x xs =>
      show (if a.createdAt ≤ x.createdAt then a :: x :: xs
            else x :: insertByCreated a xs) = a :: x :: xs
      rw [if_pos (ha x (by simp))]

/-- Fetched batches inherit strictly increasing ids and respect the
watermark, for a table whose created_at order carries increasing ids. -/
theorem fetchNewMessages_spec (table : List Msg) (w : Option Nat)
    (hsorted : List.Pairwise (fun a b : Msg => a.createdAt ≤ b.createdAt)
      table)
    (hids : List.Pairwise (fun a b : Msg => a.id < b.id) table) :
    List.Pairwise (fun a b : Msg => a.id < b.id)
      (fetchNewMessages table w)
    ∧ ∀ m ∈ fetchNewMessages table w, watermarkLt w m.id := by
  unfold fetchNewMessages
  rw [sortByCreated_eq_self table hsorted]
  constructor
  · exact hids.sublist ((List.take_sublist _ _).trans (List.filter_sublist _))
  · intro m hm
    have hmf := (List.take_sublist 50 _).subset hm
    have hp := (List.mem_filter.mp hmf).2
    cases w with
    | none => trivial
    | some l =>
      simp only [Bool.and_eq_true, decide_eq_true_iff] at hp
      exact hp.2

/-- The last element of a strictly id-increasing list bounds all ids. -/
theorem getLast_id_max (l : List Msg)
    (h : List.Pairwise (fun a b : Msg => a.id < b.id) l) (m : Msg)
    (hm : l.getLast? = some m) : ∀ a ∈ l, a.id ≤ m.id := by
  induction l with
  | nil => cases hm
  | cons a t ih =>
    cases t with
    | nil =>
      simp only [List.getLast?_singleton, Option.some.injEq] at hm
      subst hm
      intro x hx
      simp only [List.mem_singleton] at hx
      subst hx
      exact le_refl _
    | cons b t' =>
      rcases List.pairwise_cons.mp h with ⟨ha, ht⟩
      have hm' : (b :: t').getLast? = some m := by
        simpa [List.getLast?] using hm
      have hrec := ih ht hm'
      intro x hx
      rcases List.mem_cons.mp hx with rfl | hx
      · have hmm : m ∈ b :: t' := by
          cases hlm : (b :: t').getLast? with
          | none => simp [hlm] at hm'
          | some y =>
            rw [hlm] at hm'
            cases hm'
            exact List.mem_of_mem_getLast? hlm
        exact le_of_lt (ha m hmm)
      · exact hrec x hx

/-- `message`-event ids of an appended event list. -/
theorem emittedIds_append (xs ys : List SSEEvent) :
    emittedIds (xs ++ ys) = emittedIds xs ++ emittedIds ys := by
  simp [emittedIds, List.filterMap_append]

/-- `message`-event ids of a batch emission. -/
theorem emittedIds_map_message (l : List Msg) :
    emittedIds (l.map .message) = l.map (fun m : Msg => m.id) := by
  induction l with
  | nil => rfl
  | cons a t ih => simp [emittedIds] at ih ⊢; exact ih

/-- Invariant of the poll loop: with the transport accepting writes and
every table snapshot listing ids increasingly along created_at order, the
ids of the emitted `message` events are strictly increasing and all lie
above the starting watermark. -/
theorem sseLoop_emitted_spec (startTime : Nat) (iters : List SSEIter)
    (hwrite : ∀ it ∈ iters, it.writeOk = true)
    (htab : ∀ it ∈ iters,
      List.Pairwise (fun a b : Msg => a.createdAt ≤ b.createdAt) it.table
      ∧ List.Pairwise (fun a b : Msg => a.id < b.id) it.table) :
    ∀ w lastHb,
      List.Pairwise (· < ·)
        (emittedIds (sseLoop startTime iters w lastHb).1)
      ∧ ∀ i ∈ emittedIds (sseLoop startTime iters w lastHb).1,
          watermarkLt w i := by
  induction iters with
  | nil => intro w lastHb; exact ⟨List.Pairwise.nil, by simp [sseLoop, emittedIds]⟩
  | cons it rest ih =>
    intro w lastHb
    have hwr : it.writeOk = true := hwrite it (by simp)
    have hwrest : ∀ u ∈ rest, u.writeOk = true :=
      fun u hu => hwrite u (by simp [hu])
    have htrest : ∀ u ∈ rest,
        List.Pairwise (fun a b : Msg => a.createdAt ≤ b.createdAt) u.table
        ∧ List.Pairwise (fun a b : Msg => a.id < b.id) u.table :=
      fun u hu => htab u (by simp [hu])
    obtain ⟨hts, hti⟩ := htab it (by simp)
    obtain ⟨hbp, hbw⟩ := fetchNewMessages_spec it.table w hts hti
    by_cases hd : SSE_MAX_DURATION < it.now - startTime
    · simp [sseLoop, hd, hwr, emittedIds]
    · by_cases hbatch : (fetchNewMessages it.table w).isEmpty
      · have heq : (sseLoop startTime (it :: rest) w lastHb).1 =
            (if SSE_HEARTBEAT_INTERVAL < it.now - lastHb
              then [SSEEvent.ping it.now] else [])
            ++ (sseLoop startTime rest w
                (if SSE_HEARTBEAT_INTERVAL < it.now - lastHb
                  then it.now else lastHb)).1 := by
          simp [sseLoop, hd, hwr, hbatch]
        obtain ⟨ih1, ih2⟩ := ih hwrest htrest w
          (if SSE_HEARTBEAT_INTERVAL < it.now - lastHb then it.now
            else lastHb)
        rw [heq, emittedIds_append]
        have hping : emittedIds (if SSE_HEARTBEAT_INTERVAL < it.now - lastHb
            then [SSEEvent.ping it.now] else []) = [] := by
          split <;> rfl
        rw [hping, List.nil_append]
        exact ⟨ih1, ih2⟩
      · have hne : fetchNewMessages it.table w ≠ [] := by
          simpa [List.isEmpty_iff] using hbatch
        obtain ⟨m, hlast⟩ :
            ∃ m, (fetchNewMessages it.table w).getLast? = some m := by
          cases hl : (fetchNewMessages it.table w).getLast? with
          | none => exact absurd (List.getLast?_eq_none_iff.mp hl) hne
          | some y => exact ⟨y, rfl⟩
        have hmax := getLast_id_max _ hbp m hlast
        have hmmem : m ∈ fetchNewMessages it.table w :=
          List.mem_of_mem_getLast? hlast
        have heq : (sseLoop startTime (it :: rest) w lastHb).1 =
            (if SSE_HEARTBEAT_INTERVAL < it.now - lastHb
              then [SSEEvent.ping it.now] else [])
            ++ (fetchNewMessages it.table w).map .message
            ++ (sseLoop startTime rest (some m.id)
                (if SSE_HEARTBEAT_INTERVAL < it.now - lastHb
                  then it.now else lastHb)).1 := by
          simp [sseLoop, hd, hwr, hbatch, hlast]
        obtain ⟨ih1, ih2⟩ := ih hwrest htrest (some m.id)
          (if SSE_HEARTBEAT_INTERVAL < it.now - lastHb then it.now
            else lastHb)
        rw [heq, emittedIds_append, emittedIds_append,
          emittedIds_map_message]
        have hping : emittedIds (if SSE_HEARTBEAT_INTERVAL < it.now - lastHb
            then [SSEEvent.ping it.now] else []) = [] := by
          split <;> rfl
        rw [hping, List.nil_append]
        constructor
        · rw [List.pairwise_append]
          refine ⟨List.pairwise_map.mpr hbp, ih1, ?_⟩
          intro a ha b hb
          simp only [List.mem_map] at ha
          rcases ha with ⟨x, hx, rfl⟩
          have hxm : x.id ≤ m.id := hmax x hx
          have hmb : m.id < b := ih2 b hb
          omega
        · intro i hi
          rcases List.mem_append.mp hi with hi | hi
          · simp only [List.mem_map] at hi
            rcases hi with ⟨x, hx, rfl⟩
            exact hbw x hx
          · have hmi : m.id < i := ih2 i hi
            have hwm := hbw m hmmem
            cases w with
            | none => trivial
            | some l =>
              simp only [watermarkLt] at hwm ⊢
              omega

/-- C1: watermark monotonicity.  Within one SSE session over a trace of
poll iterations whose transport accepts writes and whose table snapshots
carry strictly increasing identifiers along created_at order (messages
inserted with increasing identifiers), the ids of the emitted `message`
events are strictly increasing — one event per fetched item, in increasing
watermark order — and hence no message is delivered twice across poll
iterations. -/
theorem claim_C1_watermark_monotonicity (startTime : Nat)
    (iters : List SSEIter)
    (hwrite : ∀ it ∈ iters, it.writeOk = true)
    (htab : ∀ it ∈ iters,
      List.Pairwise (fun a b : Msg => a.createdAt ≤ b.createdAt) it.table
      ∧ List.Pairwise (fun a b : Msg => a.id < b.id) it.table) :
    List.Pairwise (· < ·) (emittedIds (sseSession startTime iters).1)
    ∧ (emittedIds (sseSession startTime iters).1).Nodup := by
  have h := sseLoop_emitted_spec startTime iters hwrite htab
    (initSSEState startTime).lastMessageId startTime
  have hsess : emittedIds (sseSession startTime iters).1 =
      emittedIds (sseLoop startTime iters
        (initSSEState startTime).lastMessageId startTime).1 := by
    simp [sseSession, emittedIds]
  rw [hsess]
  refine ⟨h.1, ?_⟩
  rw [List.Nodup]
  exact h.1.imp fun hab => Nat.ne_of_lt hab

/-- A stored message with the given id and creation time. -/
def demoMsg (i t : Nat) : Msg := { id := i, createdAt := t, isDeleted := false }

/-- Witness for C1: two poll iterations, the second observing one newly
inserted message. -/
theorem claim_C1_watermark_monotonicity_witness :
    ((∀ it ∈ [(⟨1000, [demoMsg 1 10, demoMsg 2 20], true⟩ : SSEIter),
          ⟨3000, [demoMsg 1 10, demoMsg 2 20, demoMsg 3 30], true⟩],
        it.writeOk = true)
      ∧ (∀ it ∈ [(⟨1000, [demoMsg 1 10, demoMsg 2 20], true⟩ : SSEIter),
          ⟨3000, [demoMsg 1 10, demoMsg 2 20, demoMsg 3 30], true⟩],
          List.Pairwise (fun a b : Msg => a.createdAt ≤ b.createdAt) it.table
          ∧ List.Pairwise (fun a b : Msg => a.id < b.id) it.table))
    ∧ (List.Pairwise (· < ·)
        (emittedIds (sseSession 0
          [⟨1000, [demoMsg 1 10, demoMsg 2 20], true⟩,
           ⟨3000, [demoMsg 1 10, demoMsg 2 20, demoMsg 3 30], true⟩]).1)
      ∧ (emittedIds (sseSession 0
          [⟨1000, [demoMsg 1 10, demoMsg 2 20], true⟩,
           ⟨3000, [demoMsg 1 10, demoMsg 2 20, demoMsg 3 30], true⟩]).1).Nodup) :=
  ⟨⟨by decide, by decide⟩,
   claim_C1_watermark_monotonicity 0
     [⟨1000, [demoMsg 1 10, demoMsg 2 20], true⟩,
      ⟨3000, [demoMsg 1 10, demoMsg 2 20, demoMsg 3 30], true⟩]
     (by decide) (by decide)⟩

/-- The loop closes with a single trailing `reconnect` once some granted
iteration observes the session past `SSE_MAX_DURATION`, provided the
transport keeps accepting writes. -/
theorem sseLoop_reconnect_spec (startTime : Nat) (iters : List SSEIter)
    (hwrite : ∀ it ∈ iters, it.writeOk = true) :
    ∀ w lastHb, (∃ it ∈ iters, SSE_MAX_DURATION < it.now - startTime) →
      (sseLoop startTime iters w lastHb).2 = true
      ∧ ∃ pre, (sseLoop startTime iters w lastHb).1 = pre ++ [.reconnect]
          ∧ SSEEvent.reconnect ∉ pre := by
  induction iters with
  | nil =>
    intro w lastHb hex
    rcases hex with ⟨u, hu, _⟩
    exact absurd hu (List.not_mem_nil u)
  | cons it rest ih =>
    intro w lastHb hex
    have hwr : it.writeOk = true := hwrite it (by simp)
    have hwrest : ∀ u ∈ rest, u.writeOk = true :=
      fun u hu => hwrite u (by simp [hu])
    by_cases hd : SSE_MAX_DURATION < it.now - startTime
    · refine ⟨by simp [sseLoop, hd, hwr], [], by simp [sseLoop, hd, hwr],
        by simp⟩
    · have hex' : ∃ u ∈ rest, SSE_MAX_DURATION < u.now - startTime := by
        rcases hex with ⟨u, hu, hud⟩
        rcases List.mem_cons.mp hu with rfl | hu
        · exact absurd hud hd
        · exact ⟨u, hu, hud⟩
      by_cases hbatch : (fetchNewMessages it.table w).isEmpty
      · obtain ⟨ihc, pre', hpre', hnot⟩ := ih hwrest w
          (if SSE_HEARTBEAT_INTERVAL < it.now - lastHb then it.now
            else lastHb) hex'
        refine ⟨by simp [sseLoop, hd, hwr, hbatch, ihc],
          (if SSE_HEARTBEAT_INTERVAL < it.now - lastHb
            then [SSEEvent.ping it.now] else []) ++ pre', ?_, ?_⟩
        · simp only [sseLoop, hd, if_false, hwr, hbatch]
          simp [hpre']
        · simp only [List.mem_append]
          rintro (hp | hp)
          · revert hp
            split <;> simp
          · exact hnot hp
      · obtain ⟨m, hlast⟩ :
            ∃ m, (fetchNewMessages it.table w).getLast? = some m := by
          cases hl : (fetchNewMessages it.table w).getLast? with
          | none =>
            have hne : fetchNewMessages it.table w ≠ [] := by
              simpa [List.isEmpty_iff] using hbatch
            exact absurd (List.getLast?_eq_none_iff.mp hl) hne
          | some y => exact ⟨y, rfl⟩
        obtain ⟨ihc, pre', hpre', hnot⟩ := ih hwrest (some m.id)
          (if SSE_HEARTBEAT_INTERVAL < it.now - lastHb then it.now
            else lastHb) hex'
        refine ⟨by simp [sseLoop, hd, hwr, hbatch, hlast, ihc],
          (if SSE_HEARTBEAT_INTERVAL < it.now - lastHb
            then [SSEEvent.ping it.now] else [])
            ++ (fetchNewMessages it.table w).map .message ++ pre', ?_, ?_⟩
        · simp only [sseLoop, hd, if_false, hwr, hbatch, hlast]
          simp [hpre']
        · simp only [List.mem_append]
          rintro ((hp | hp) | hp)
          · revert hp
            split <;> simp
          · simp only [List.mem_map] at hp
            rcases hp with ⟨x, _, hx⟩
            cases hx
          · exact hnot hp

/-- C5: duration bound.  Once a granted iteration observes the session
past `SSE_MAX_DURATION` (with the transport accepting writes), the session
closes (`cleanup` runs, the loop consumes no further iterations), exactly
one `reconnect` event is emitted, it is the final event, and no event
follows it. -/
theorem claim_C5_duration_bound (startTime : Nat) (iters : List SSEIter)
    (hwrite : ∀ it ∈ iters, it.writeOk = true)
    (hex : ∃ it ∈ iters, SSE_MAX_DURATION < it.now - startTime) :
    (sseSession startTime iters).2 = true
    ∧ (sseSession startTime iters).1.count SSEEvent.reconnect = 1
    ∧ ∃ pre, (sseSession startTime iters).1 = pre ++ [SSEEvent.reconnect]
        ∧ SSEEvent.reconnect ∉ pre := by
  obtain ⟨hc, pre, hpre, hnot⟩ := sseLoop_reconnect_spec startTime iters
    hwrite (initSSEState startTime).lastMessageId startTime hex
  have h1 : (sseSession startTime iters).2 = true := by
    simp [sseSession, hc]
  have h2 : (sseSession startTime iters).1 =
      (SSEEvent.connected :: pre) ++ [SSEEvent.reconnect] := by
    simp [sseSession, hpre]
  have h3 : SSEEvent.reconnect ∉ SSEEvent.connected :: pre := by
    simp [hnot]
  refine ⟨h1, ?_, SSEEvent.connected :: pre, h2, h3⟩
  rw [h2, List.count_append, List.count_eq_zero.mpr h3]
  simp

/-- Witness for C5: one granted iteration at 30 s into the session. -/
theorem claim_C5_duration_bound_witness :
    ((∀ it ∈ [(⟨30000, [], true⟩ : SSEIter)], it.writeOk = true)
      ∧ ∃ it ∈ [(⟨30000, [], true⟩ : SSEIter)],
          SSE_MAX_DURATION < it.now - 0)
    ∧ ((sseSession 0 [⟨30000, [], true⟩]).2 = true
      ∧ (sseSession 0 [⟨30000, [], true⟩]).1.count SSEEvent.reconnect = 1
      ∧ ∃ pre, (sseSession 0 [⟨30000, [], true⟩]).1 =
            pre ++ [SSEEvent.reconnect]
          ∧ SSEEvent.reconnect ∉ pre) :=
  ⟨⟨by decide, by decide⟩,
   claim_C5_duration_bound 0 [⟨30000, [], true⟩] (by decide) (by decide)⟩

/-- C9: backlog replay.  A fresh stream starts from the null watermark, so
its first poll iteration (before any heartbeat or timeout is due) emits
the stored backlog: up to 50 of the oldest non-deleted messages of the
conversation, in created_at order, as `message` events right after
`connected` — not only messages created after the connection opened. -/
theorem claim_C9_backlog_replay (startTime : Nat) (it : SSEIter)
    (rest : List SSEIter)
    (hd : it.now - startTime ≤ SSE_MAX_DURATION)
    (hhb : it.now - startTime ≤ SSE_HEARTBEAT_INTERVAL)
    (hwr : it.writeOk = true)
    (hsorted : List.Pairwise (fun a b : Msg => a.createdAt ≤ b.createdAt)
      it.table) :
    (initSSEState startTime).lastMessageId = none
    ∧ fetchNewMessages it.table none =
        (it.table.filter fun m => !m.isDeleted).take 50
    ∧ (fetchNewMessages it.table none).length ≤ 50
    ∧ ∃ tailEvs, (sseSession startTime (it :: rest)).1 =
        SSEEvent.connected ::
          ((it.table.filter fun m => !m.isDeleted).take 50).map .message
          ++ tailEvs := by
  have h2 : fetchNewMessages it.table none =
      (it.table.filter fun m => !m.isDeleted).take 50 := by
    unfold fetchNewMessages
    rw [sortByCreated_eq_self _ hsorted]
    simp
  have hd' : ¬ SSE_MAX_DURATION < it.now - startTime := by omega
  have hhb' : ¬ SSE_HEARTBEAT_INTERVAL < it.now - startTime := by omega
  refine ⟨rfl, h2, ?_, ?_⟩
  · rw [h2]
    simp [List.length_take]
  · rw [← h2]
    by_cases hbatch : (fetchNewMessages it.table none).isEmpty
    · refine ⟨(sseLoop startTime rest none startTime).1, ?_⟩
      have hbe := List.isEmpty_iff.mp hbatch
      simp [sseSession, sseLoop, initSSEState, hd', hhb', hwr, hbe]
    · have hne : fetchNewMessages it.table none ≠ [] := by
        simpa [List.isEmpty_iff] using hbatch
      obtain ⟨m, hlast⟩ :
          ∃ m, (fetchNewMessages it.table none).getLast? = some m := by
        cases hl : (fetchNewMessages it.table none).getLast? with
        | none => exact absurd (List.getLast?_eq_none_iff.mp hl) hne
        | some y => exact ⟨y, rfl⟩
      refine ⟨(sseLoop startTime rest (some m.id) startTime).1, ?_⟩
      simp [sseSession, sseLoop, initSSEState, hd', hhb', hwr, hne, hlast]

/-- Witness for C9: a fresh stream over a table holding two old messages
replays both. -/
theorem claim_C9_backlog_replay_witness :
    (((⟨1000, [demoMsg 1 10, demoMsg 2 20], true⟩ : SSEIter).now - 0
        ≤ SSE_MAX_DURATION)
      ∧ ((⟨1000, [demoMsg 1 10, demoMsg 2 20], true⟩ : SSEIter).now - 0
        ≤ SSE_HEARTBEAT_INTERVAL))
    ∧ ((initSSEState 0).lastMessageId = none
      ∧ fetchNewMessages
          (⟨1000, [demoMsg 1 10, demoMsg 2 20], true⟩ : SSEIter).table none =
        ((⟨1000, [demoMsg 1 10, demoMsg 2 20], true⟩ : SSEIter).table.filter
            fun m => !m.isDeleted).take 50
      ∧ (fetchNewMessages
          (⟨1000, [demoMsg 1 10, demoMsg 2 20], true⟩ : SSEIter).table
            none).length ≤ 50
      ∧ ∃ tailEvs,
          (sseSession 0 [(⟨1000, [demoMsg 1 10, demoMsg 2 20],
              true⟩ : SSEIter)]).1 =
            SSEEvent.connected ::
              (((⟨1000, [demoMsg 1 10, demoMsg 2 20],
                  true⟩ : SSEIter).table.filter
                  fun m => !m.isDeleted).take 50).map .message
              ++ tailEvs) :=
  ⟨⟨by decide, by decide⟩,
   claim_C9_backlog_replay 0 ⟨1000, [demoMsg 1 10, demoMsg 2 20], true⟩ []
     (by decide) (by decide) (by decide) (by decide)⟩

end Gateway
